import Mathlib

/-!
Shallow embedding of the Key Recovery Service core (`app/krs.js`):
master-key pool claiming, child-key derivation and the provisioning
request flow, together with proofs about the allocation policy, the
error handling and the side-effect sequencing.

The persistence layer (Mongoose models `MasterKey` / `WalletKey`) is
modelled as explicit state passing over lists of records; the external
collaborators (mailer, mailchimp, webhook transport, HD derivation)
are modelled from the spec as events and symbolic primitives.
-/

namespace KRS

/-- JS truthiness of a possibly-absent string: `undefined`, `null` and
the empty string are falsy, every other string is truthy. -/
def jsTruthyS : Option String → Bool
  | none => false
  | some s => !(s == "")

/-- JS falsiness of a possibly-absent string. -/
def jsFalsyS (o : Option String) : Bool := !(jsTruthyS o)

/-- Lookup in a JS-object-as-table, e.g. `process.config.supportedcoins[coin]`. -/
def lookupStr (table : List (String × String)) (k : String) : Option String :=
  (table.find? (fun p => p.1 == k)).map (fun p => p.2)

/-- How a possibly-undefined value prints inside a JS template literal. -/
def keyTypeStr : Option String → String
  | none => "undefined"
  | some s => s

/-- Modelled from the spec: the HD child-key derivation primitive
(`utils.deriveChildKey`, not under `src/`), an external deterministic
function of the master public key and the index; kept symbolic. -/
def deriveChildKey (pub : String) (path : String) (kind : String) : String :=
  "child(" ++ kind ++ "," ++ pub ++ "," ++ path ++ ")"

/-- Modelled from the spec: the hex HMAC-SHA256 authenticity tag used by
`notifyEndpoint` (`crypto.createHmac('sha256', secret)`), kept symbolic. -/
def hmacSHA256hex (secret : String) (msg : String) : String :=
  "hmac-sha256(" ++ secret ++ "," ++ msg ++ ")"

/-- Modelled from the spec: `utils.ErrorResponse(status, message)`
(not under `src/`), the error value thrown by the request handlers. -/
structure ErrorResponse where
  status : Nat
  msg : String
deriving DecidableEq, Repr

deriving instance DecidableEq for Except

/-- A master key record (`app/models/masterkey`): the schema is not under
`src/`, so the fields are the ones `app/krs.js` reads and writes, plus the
lifecycle described by the spec (`coin`/`customerId` null while unassigned,
`keyCount` the next derivation index, optional proof-of-possession
signature). `id` stands for the Mongo `_id` targeted by `update`. -/
structure MasterKey where
  id : Nat
  coin : Option String
  customerId : Option String
  type : String
  pub : String
  keyCount : Nat
  signature : Option String
deriving DecidableEq, Repr

/-- The caller-supplied `custom` metadata object: its `created` field
(the one the engine overwrites) plus the remaining opaque fields. -/
structure CustomMeta where
  created : Option Nat
  fields : List (String × String)
deriving DecidableEq, Repr

/-- A wallet key document (`app/models/walletkey`): schema not under
`src/`, so the fields are exactly the properties `app/krs.js` assigns,
all `none` at `new WalletKey()` as a JS object property read of an
unassigned property yields `undefined`. `xpub` is read by
`notifyEndpoint` but never assigned anywhere in `app/krs.js`. -/
structure WalletKey where
  pub : Option String := none
  masterKey : Option String := none
  path : Option Nat := none
  userEmail : Option String := none
  notificationURL : Option String := none
  custom : Option CustomMeta := none
  masterKeySig : Option String := none
  xpub : Option String := none
deriving DecidableEq, Repr

/-- The webhook POST body built by `notifyEndpoint`. -/
structure WebhookPayload where
  userEmail : Option String
  provider : String
  state : String
  xpub : Option String
  hmac : Option String
deriving DecidableEq, Repr

/-- Observable external effects of a request, in program order:
persisted saves and increments, the low-supply admin warning
(`sendDatabaseLowWarning`), outbound mails, mailchimp calls, the
webhook POST and `console.log` lines. -/
inductive Event where
  | lowKeyWarning (availableKeys : Nat) (keyType : String)
  | savedWalletKey (key : WalletKey)
  | incKeyCount (id : Nat)
  | sentEmail (recipient : String) (template : String)
  | mailchimpCreate (email : String)
  | mailchimpAddTag (email : String) (tag : String)
  | webhookPost (url : String) (payload : WebhookPayload)
  | log (msg : String)
deriving DecidableEq, Repr

/-- The requester-auth section of the configuration
(`process.config.requesterAuth`). -/
structure RequesterAuth where
  required : Bool
  clients : List (String × String)
deriving DecidableEq, Repr

/-- The configuration surface `app/krs.js` reads from `process.config`. -/
structure Config where
  supportedcoins : List (String × String)
  neverReuseMasterKey : Bool
  lowKeyWarningLevels : List Nat
  disableAllKRSEmail : Bool
  sendMailChimpNotKRSEMail : Bool
  requesterAuth : Option RequesterAuth
  providerId : String
  providerSecret : String
  adminemail : String
  mailchimpFirstWalletTags : String
  mailchimpMoreWalletsTags : String
deriving DecidableEq, Repr

/-- The two Mongo collections the engine mutates. -/
structure Store where
  masterKeys : List MasterKey
  walletKeys : List WalletKey
deriving DecidableEq, Repr

/-- A provisioning request body (`req.body`). -/
structure Request where
  customerId : Option String
  coin : Option String
  userEmail : Option String
  notificationURL : Option String
  custom : Option CustomMeta
  disableKRSEmail : Bool
  requesterId : Option String
  requesterSecret : Option String
deriving DecidableEq, Repr

/-- The provisioning response object literal of `provisionKey`. -/
structure Response where
  masterKey : String
  path : Option Nat
  userEmail : Option String
  custom : Option CustomMeta
  masterKeySig : Option String
  pub : Option String
deriving DecidableEq, Repr

/-- Outcomes of the external side-effect collaborators for one request
(modelled from the spec: mailer, mailchimp and webhook transport are
out-of-scope collaborators that may fail): whether `utils.sendMailQ`
resolves, whether the two mailchimp calls throw and what status they
report, and whether the webhook POST connects. -/
structure Ext where
  emailOk : Bool
  mcCreateThrows : Bool
  mcCreateStatus : Nat
  mcTagThrows : Bool
  mcTagStatus : Nat
  webhookOk : Bool
deriving DecidableEq, Repr

/-- The Mongo query `{ coin: null, customerId: null, type: keyType }` used
by `provisionMasterKey`. Mongoose strips `undefined` values from a query,
so an undefined `keyType` places no constraint on `type`. -/
def matchesUnassigned (keyType : Option String) (m : MasterKey) : Bool :=
  m.coin.isNone && m.customerId.isNone &&
    (match keyType with
     | none => true
     | some t => m.type == t)

/-- The update `{ coin, customerId, type: keyType }` applied by
`MasterKey.findOneAndUpdate` to the selected record (an `undefined`
`type` is stripped by Mongoose and leaves the field unchanged). -/
def assignKey (coin customerId : String) (keyType : Option String) (m : MasterKey) : MasterKey :=
  { m with
    coin := some coin
    customerId := some customerId
    type := match keyType with
            | none => m.type
            | some t => t }

/-- `MasterKey.findOneAndUpdate({coin: null, customerId: null, type}, …)`:
atomically selects one unassigned record of the key type, assigns it, and
returns the pre-update snapshot together with the updated collection
(Mongoose returns the document as it was before the update by default). -/
def claimFirst (coin customerId : String) (keyType : Option String) :
    List MasterKey → Option (MasterKey × List MasterKey)
  | [] => none
  | m :: rest =>
    if matchesUnassigned keyType m then
      some (m, assignKey coin customerId keyType m :: rest)
    else
      match claimFirst coin customerId keyType rest with
      | none => none
      | some (k, ms) => some (k, m :: ms)

/-- `MasterKey.countDocuments({coin: null, customerId: null, type})`. -/
def countUnassigned (keyType : Option String) (l : List MasterKey) : Nat :=
  (l.filter (matchesUnassigned keyType)).length

/-- `masterKey.update({ $inc: { keyCount: 1 } })`: the `$inc` targets the
document with the snapshot's `_id`. -/
def incKeyCountById (i : Nat) (l : List MasterKey) : List MasterKey :=
  l.map (fun m => if m.id == i then { m with keyCount := m.keyCount + 1 } else m)

/-- Lookup of a master key record by `_id`. -/
def findById (i : Nat) (l : List MasterKey) : Option MasterKey :=
  l.find? (fun m => m.id == i)

/-- `provisionMasterKey(coin, customerId)` from `app/krs.js`: claims a
random unassigned master key of the configured key type (modelled as the
first matching record), throws a 500 when the pool is empty, then counts
the remaining unassigned keys and sends the database-low warning when the
count is one of the configured levels and KRS email is not disabled. -/
def provisionMasterKey (cfg : Config) (coin customerId : String) (st : Store) :
    (Except ErrorResponse MasterKey) × Store × List Event :=
  let keyType := lookupStr cfg.supportedcoins coin
  match claimFirst coin customerId keyType st.masterKeys with
  | none =>
      (Except.error ⟨500, "no available " ++ keyTypeStr keyType ++ " keys"⟩, st, [])
  | some (key, ms) =>
      let availableKeys := countUnassigned keyType ms
      let evs :=
        if cfg.lowKeyWarningLevels.contains availableKeys && !cfg.disableAllKRSEmail then
          [Event.lowKeyWarning availableKeys (keyTypeStr keyType)]
        else []
      (Except.ok key, { st with masterKeys := ms }, evs)

/-- `getMasterXpub(coin, customerId)` from `app/krs.js`: always provisions
a fresh master key when `neverReuseMasterKey` is configured, otherwise
reuses the key already assigned to `(coin, customerId)` via
`MasterKey.findOne`, provisioning a fresh one only when none is assigned. -/
def getMasterXpub (cfg : Config) (coin customerId : String) (st : Store) :
    (Except ErrorResponse MasterKey) × Store × List Event :=
  if cfg.neverReuseMasterKey then
    provisionMasterKey cfg coin customerId st
  else
    match st.masterKeys.find? (fun m => m.coin == some coin && m.customerId == some customerId) with
    | some masterKey => (Except.ok masterKey, st, [])
    | none => provisionMasterKey cfg coin customerId st

/-- The requester authentication block repeated in `provisionKey`,
`isUserKey` and `isUser`: active only when `process.config.requesterAuth`
exists and `required` is set; throws 401 when both credentials are absent,
or when the configured secret for `requesterId` is falsy or differs from
the supplied `requesterSecret`. -/
def requesterAuthCheck (cfg : Config) (req : Request) : Option ErrorResponse :=
  match cfg.requesterAuth with
  | none => none
  | some ra =>
    if ra.required then
      if jsFalsyS req.requesterId && jsFalsyS req.requesterSecret then
        some ⟨401, "this krs requires you to send a requesterId and requesterSecret to get a key"⟩
      else
        let stored := match req.requesterId with
                      | none => none
                      | some i => lookupStr ra.clients i
        if jsFalsyS stored || !(stored == req.requesterSecret) then
          some ⟨401, "invalid requesterSecret"⟩
        else none
    else none

/-- `isExistingUser(email)`: `WalletKey.findOne({userEmail})` as a pure
existence check. -/
def isExistingUser (st : Store) (email : String) : Bool :=
  st.walletKeys.any (fun k => k.userEmail == some email)

/-- The new `WalletKey` document as assigned by `provisionKey` just
before `key.save()`: `pub` is the master key's own pub for the `xlm` key
type and the derived child key otherwise; `path` is the master key's
current `keyCount`; `custom` is the caller's object (or `{}`) with its
`created` field overwritten; `masterKeySig` is set only after the save
and `xpub` is never assigned. -/
def mkWalletKey (cfg : Config) (now : Nat) (req : Request) (masterKey : MasterKey) : WalletKey :=
  let coin := req.coin.getD ""
  let pub0 :=
    if lookupStr cfg.supportedcoins coin == some "xlm" then masterKey.pub
    else deriveChildKey masterKey.pub (toString masterKey.keyCount) "xpub"
  { pub := some pub0
    masterKey := some masterKey.pub
    path := some masterKey.keyCount
    userEmail := req.userEmail
    notificationURL := req.notificationURL
    custom := some { req.custom.getD { created := none, fields := [] } with created := some now }
    masterKeySig := none
    xpub := none }

/-- The in-memory document after line 165-167 of `app/krs.js`: the
master key's signature is copied onto the (already saved) wallet key
when present (JS truthiness). -/
def keyWithSig (masterKey : MasterKey) (key : WalletKey) : WalletKey :=
  if jsTruthyS masterKey.signature then { key with masterKeySig := masterKey.signature } else key

/-- The response object literal at the end of `provisionKey`. -/
def mkResponse (masterKey : MasterKey) (key : WalletKey) : Response :=
  { masterKey := masterKey.pub
    path := key.path
    userEmail := key.userEmail
    custom := key.custom
    masterKeySig := masterKey.signature
    pub := key.pub }

/-- `notifyEndpoint(key, state)` from `app/krs.js`: builds the webhook
payload from `key.xpub` (reading an unassigned JS property yields
`undefined`, modelled as `none`; the HMAC over it is modelled on the
optional value), POSTs it to `key.notificationURL`, and catches a failed
connection, logging `error connecting to webhook` instead of throwing. -/
def notifyEndpoint (cfg : Config) (ext : Ext) (key : WalletKey) (state : String) : List Event :=
  let xpub := key.xpub
  let hmac := xpub.map (fun x => hmacSHA256hex cfg.providerSecret x)
  let payload : WebhookPayload :=
    { userEmail := key.userEmail
      provider := cfg.providerId
      state := state
      xpub := xpub
      hmac := hmac }
  if ext.webhookOk then
    [Event.webhookPost (key.notificationURL.getD "") payload]
  else
    [Event.log "error connecting to webhook"]

/-- The mailchimp block of `provisionKey` (lines 191-215): `createMember`
then `addTagToMember` with the first- or more-wallets tag, logging
non-200 statuses; any thrown error is logged and then re-thrown as a 503
by the caller. `Except.error` carries the events logged before the
throw. -/
def mailchimpSync (cfg : Config) (ext : Ext) (existingUser : Bool) (userEmail : String) :
    Except (List Event) (List Event) :=
  if ext.mcCreateThrows then
    Except.error [Event.log "Failed to create Mailchimp lists and tags. "]
  else
    let evs1 := Event.mailchimpCreate userEmail ::
      (if ext.mcCreateStatus != 200 then [Event.log "Mailchimp User Not Created. "] else [])
    if ext.mcTagThrows then
      Except.error (evs1 ++ [Event.log "Failed to create Mailchimp lists and tags. "])
    else
      let tag := if existingUser then cfg.mailchimpMoreWalletsTags else cfg.mailchimpFirstWalletTags
      let evs2 := evs1 ++ [Event.mailchimpAddTag userEmail tag, Event.log ("Adding[" ++ tag ++ "] to existing user.")]
      Except.ok (evs2 ++ (if ext.mcTagStatus != 200 then [Event.log "Mailchimp API Error - Tags not added"] else []))

/-- Lines 171-219 of `provisionKey`: the owner email (mandatory; a send
failure is re-thrown as a 503), the mailchimp synchronization (a failure
is logged and re-thrown as a 503), then the webhook call if the request
carried a `notificationURL` (its failures are swallowed by
`notifyEndpoint`). Returns the thrown error, if any, with the events
emitted up to that point. -/
def sideEffects (cfg : Config) (ext : Ext) (req : Request) (existingUser : Bool) (key : WalletKey) :
    (Except ErrorResponse Unit) × List Event :=
  let userEmail := req.userEmail.getD ""
  let emailStep : Except Unit (List Event) :=
    if !req.disableKRSEmail && !cfg.disableAllKRSEmail && !cfg.sendMailChimpNotKRSEMail then
      if ext.emailOk then
        Except.ok [Event.sentEmail userEmail
          (if existingUser then "existingUserNewKeyTemplate" else "newkeytemplate")]
      else Except.error ()
    else Except.ok []
  match emailStep with
  | Except.error _ => (Except.error ⟨503, "Problem sending email"⟩, [])
  | Except.ok evsEmail =>
    match (if cfg.sendMailChimpNotKRSEMail then mailchimpSync cfg ext existingUser userEmail
           else Except.ok []) with
    | Except.error evsMc =>
        (Except.error ⟨503, "Problem calling mailchimp"⟩, evsEmail ++ evsMc)
    | Except.ok evsMc =>
        let evsWh :=
          if jsTruthyS key.notificationURL then notifyEndpoint cfg ext key "created" else []
        (Except.ok (), evsEmail ++ evsMc ++ evsWh)

/-- Lines 143-151 of `provisionKey`: Stellar wallets (key type `xlm`)
ALWAYS get a freshly provisioned master key, whose own pub becomes the
wallet key; every other coin resolves its master key via
`getMasterXpub`. -/
def allocateMasterKey (cfg : Config) (coin customerId : String) (st : Store) :
    (Except ErrorResponse MasterKey) × Store × List Event :=
  if lookupStr cfg.supportedcoins coin == some "xlm" then
    provisionMasterKey cfg coin customerId st
  else
    getMasterXpub cfg coin customerId st

/-- `provisionKey(req)` from `app/krs.js`: validates the request fields
and the coin, checks requester auth, allocates the master key (always a
fresh one for the `xlm` key type, else via `getMasterXpub`), builds and
saves the wallet key, copies the master key signature, increments the
master key's `keyCount`, runs the side effects and returns the response.
`now` is the clock value used for `new Date()`. -/
def provisionKey (cfg : Config) (ext : Ext) (now : Nat) (req : Request) (st : Store) :
    (Except ErrorResponse Response) × Store × List Event :=
  if jsFalsyS req.customerId then
    (Except.error ⟨400, "user or enterprise ID required"⟩, st, [])
  else if jsFalsyS req.coin then
    (Except.error ⟨400, "coin type required"⟩, st, [])
  else if jsFalsyS (lookupStr cfg.supportedcoins (req.coin.getD "")) then
    (Except.error ⟨400, "unsupported coin"⟩, st, [])
  else if jsFalsyS req.userEmail then
    (Except.error ⟨400, "email required"⟩, st, [])
  else
    let existingUser := isExistingUser st (req.userEmail.getD "")
    match requesterAuthCheck cfg req with
    | some e => (Except.error e, st, [])
    | none =>
      match allocateMasterKey cfg (req.coin.getD "") (req.customerId.getD "") st with
      | (Except.error e, st1, evs1) => (Except.error e, st1, evs1)
      | (Except.ok masterKey, st1, evs1) =>
        let savedKey := mkWalletKey cfg now req masterKey
        let st2 : Store := { st1 with walletKeys := st1.walletKeys ++ [savedKey] }
        let st3 : Store := { st2 with masterKeys := incKeyCountById masterKey.id st2.masterKeys }
        let evsBase := evs1 ++ [Event.savedWalletKey savedKey, Event.incKeyCount masterKey.id]
        match sideEffects cfg ext req existingUser (keyWithSig masterKey savedKey) with
        | (Except.error e, evs2) => (Except.error e, st3, evsBase ++ evs2)
        | (Except.ok _, evs2) =>
            (Except.ok (mkResponse masterKey savedKey), st3, evsBase ++ evs2)

end KRS

namespace KRS

/-! ## Concrete scenarios used as witnesses and counterexamples -/

/-- A minimal configuration supporting the derivable coin `btc`. -/
def cfgBtc : Config :=
  { supportedcoins := [("btc", "btc")]
    neverReuseMasterKey := false
    lowKeyWarningLevels := []
    disableAllKRSEmail := false
    sendMailChimpNotKRSEMail := false
    requesterAuth := none
    providerId := "prov"
    providerSecret := "sec"
    adminemail := "admin@x"
    mailchimpFirstWalletTags := "first"
    mailchimpMoreWalletsTags := "more" }

/-- The same configuration supporting the single-use coin `xlm`. -/
def cfgXlm : Config := { cfgBtc with supportedcoins := [("xlm", "xlm")] }

/-- Configuration with the mailchimp marketing sync enabled. -/
def cfgMC : Config := { cfgBtc with sendMailChimpNotKRSEMail := true }

/-- Configuration alerting when 0 keys remain. -/
def cfgLow : Config := { cfgBtc with lowKeyWarningLevels := [0] }

/-- Configuration alerting when 1 key remains, with all KRS email disabled. -/
def cfgLowDisabled : Config :=
  { cfgBtc with lowKeyWarningLevels := [1], disableAllKRSEmail := true }

/-- Configuration with required requester auth for client `id1`. -/
def cfgAuth : Config :=
  { cfgBtc with requesterAuth := some { required := true, clients := [("id1", "sec1")] } }

/-- All collaborators healthy. -/
def extOk : Ext :=
  { emailOk := true, mcCreateThrows := false, mcCreateStatus := 200,
    mcTagThrows := false, mcTagStatus := 200, webhookOk := true }

/-- The webhook endpoint is unreachable. -/
def extWebhookDown : Ext := { extOk with webhookOk := false }

/-- The mailchimp `createMember` call throws. -/
def extMcThrow : Ext := { extOk with mcCreateThrows := true }

/-- A well-formed provisioning request for coin `btc`. -/
def reqBtc : Request :=
  { customerId := some "c1", coin := some "btc", userEmail := some "u@x",
    notificationURL := none, custom := none, disableKRSEmail := false,
    requesterId := none, requesterSecret := none }

/-- The same request for coin `xlm`. -/
def reqXlm : Request := { reqBtc with coin := some "xlm" }

/-- The `btc` request carrying a webhook notification URL. -/
def reqUrl : Request := { reqBtc with notificationURL := some "https://hook" }

/-- The `btc` request carrying caller-supplied custom metadata with its
own `created` field. -/
def reqCustom : Request :=
  { reqBtc with custom := some { created := some 999, fields := [("a", "b")] } }

/-- The `btc` request with the user email missing. -/
def reqNoEmail : Request := { reqBtc with userEmail := none }

/-- The `btc` request supplying a known requesterId but no secret. -/
def reqAuthMissing : Request := { reqBtc with requesterId := some "id1" }

/-- Pool with a single unassigned `btc` master key. -/
def stBtc1 : Store :=
  { masterKeys := [⟨1, none, none, "btc", "XPUB", 0, none⟩], walletKeys := [] }

/-- Pool with a single unassigned `xlm` master key. -/
def stXlm1 : Store :=
  { masterKeys := [⟨1, none, none, "xlm", "MPUB", 0, none⟩], walletKeys := [] }

/-- Pool whose only `btc` master key is already assigned to `(btc, c1)`. -/
def stAssigned : Store :=
  { masterKeys := [⟨1, some "btc", some "c1", "btc", "XPUB", 2, none⟩], walletKeys := [] }

/-- The already-assigned master key of `stAssigned`. -/
def mAssigned : MasterKey := ⟨1, some "btc", some "c1", "btc", "XPUB", 2, none⟩

/-- Pool with two unassigned `btc` master keys. -/
def stTwo : Store :=
  { masterKeys := [⟨1, none, none, "btc", "XPUB", 0, none⟩,
                   ⟨2, none, none, "btc", "YPUB", 0, none⟩], walletKeys := [] }

/-- The empty pool. -/
def stEmpty : Store := { masterKeys := [], walletKeys := [] }

/-- The wallet key document produced by the `btc` scenario at time 3. -/
def wkBtc : WalletKey :=
  { pub := some "child(xpub,XPUB,0)", masterKey := some "XPUB", path := some 0,
    userEmail := some "u@x", notificationURL := none,
    custom := some { created := some 3, fields := [] },
    masterKeySig := none, xpub := none }

/-- The response produced by the `btc` scenario at time 3. -/
def respBtc : Response :=
  { masterKey := "XPUB", path := some 0, userEmail := some "u@x",
    custom := some { created := some 3, fields := [] },
    masterKeySig := none, pub := some "child(xpub,XPUB,0)" }

/-- The store after the `btc` scenario. -/
def stBtcFinal : Store :=
  { masterKeys := [⟨1, some "btc", some "c1", "btc", "XPUB", 1, none⟩],
    walletKeys := [wkBtc] }

/-- The wallet key document produced by the `xlm` scenario at time 3. -/
def wkXlm : WalletKey :=
  { pub := some "MPUB", masterKey := some "MPUB", path := some 0,
    userEmail := some "u@x", notificationURL := none,
    custom := some { created := some 3, fields := [] },
    masterKeySig := none, xpub := none }

/-- The response produced by the `xlm` scenario at time 3. -/
def respXlm : Response :=
  { masterKey := "MPUB", path := some 0, userEmail := some "u@x",
    custom := some { created := some 3, fields := [] },
    masterKeySig := none, pub := some "MPUB" }

/-- The store after the `xlm` scenario. -/
def stXlmFinal : Store :=
  { masterKeys := [⟨1, some "xlm", some "c1", "xlm", "MPUB", 1, none⟩],
    walletKeys := [wkXlm] }

/-- The fresh (pre-claim snapshot) master key of `stBtc1`. -/
def mBtcFresh : MasterKey := ⟨1, none, none, "btc", "XPUB", 0, none⟩

/-- `stBtc1` after its key has been claimed for `(btc, c1)` but before
the post-save increment. -/
def stBtcAssigned0 : Store :=
  { masterKeys := [⟨1, some "btc", some "c1", "btc", "XPUB", 0, none⟩], walletKeys := [] }

/-- The wallet key document of the custom-metadata scenario at time 3. -/
def wkCustom : WalletKey :=
  { pub := some "child(xpub,XPUB,0)", masterKey := some "XPUB", path := some 0,
    userEmail := some "u@x", notificationURL := none,
    custom := some { created := some 3, fields := [("a", "b")] },
    masterKeySig := none, xpub := none }

/-- The response of the custom-metadata scenario at time 3: the
caller-supplied `created := 999` has been overwritten with the service
clock. -/
def respCustom : Response :=
  { masterKey := "XPUB", path := some 0, userEmail := some "u@x",
    custom := some { created := some 3, fields := [("a", "b")] },
    masterKeySig := none, pub := some "child(xpub,XPUB,0)" }

/-- The store after the custom-metadata scenario. -/
def stCustomFinal : Store :=
  { masterKeys := [⟨1, some "btc", some "c1", "btc", "XPUB", 1, none⟩],
    walletKeys := [wkCustom] }

/-! ## Lemmas about the pool-store primitives -/

theorem claimFirst_eq_some {coin customerId : String} {kt : Option String}
    {l l2 : List MasterKey} {m : MasterKey}
    (h : claimFirst coin customerId kt l = some (m, l2)) :
    ∃ p q, l = p ++ m :: q ∧ l2 = p ++ assignKey coin customerId kt m :: q ∧
      matchesUnassigned kt m = true ∧ ∀ x ∈ p, matchesUnassigned kt x = false := by
  induction l generalizing l2 with
  | nil => simp [claimFirst] at h
  | cons a rest ih =>
    unfold claimFirst at h
    cases hm : matchesUnassigned kt a with
    | true =>
      rw [if_pos hm] at h
      obtain ⟨ha, hl2⟩ := Prod.mk.injEq .. ▸ Option.some.inj h
      refine ⟨[], rest, ?_, ?_, ?_, ?_⟩
      · simp [ha]
      · simp [← hl2, ha]
      · rw [← ha]; exact hm
      · intro x hx; simp at hx
    | false =>
      rw [if_neg (by simp [hm])] at h
      cases hc : claimFirst coin customerId kt rest with
      | none => rw [hc] at h; simp at h
      | some pr =>
        obtain ⟨k, ms⟩ := pr
        rw [hc] at h
        simp only [Option.some.injEq, Prod.mk.injEq] at h
        obtain ⟨hk, hl2⟩ := h
        subst hk
        obtain ⟨p, q, hl, hms, hmm, hp⟩ := ih hc
        refine ⟨a :: p, q, ?_, ?_, hmm, ?_⟩
        · simp [hl]
        · rw [← hl2, hms]; simp
        · intro x hx
          rcases List.mem_cons.mp hx with hx | hx
          · rw [hx]; exact hm
          · exact hp x hx

theorem claimFirst_eq_none {coin customerId : String} {kt : Option String}
    {l : List MasterKey}
    (h : ∀ x ∈ l, matchesUnassigned kt x = false) :
    claimFirst coin customerId kt l = none := by
  induction l with
  | nil => rfl
  | cons a rest ih =>
    unfold claimFirst
    rw [if_neg (by simp [h a (List.mem_cons_self a rest)])]
    rw [ih (fun x hx => h x (List.mem_cons_of_mem a hx))]

theorem countUnassigned_eq_zero {kt : Option String} {l : List MasterKey}
    (h : countUnassigned kt l = 0) :
    ∀ x ∈ l, matchesUnassigned kt x = false := by
  intro x hx
  unfold countUnassigned at h
  rw [List.length_eq_zero] at h
  by_contra hb
  have : x ∈ l.filter (matchesUnassigned kt) :=
    List.mem_filter.mpr ⟨hx, by revert hb; cases matchesUnassigned kt x <;> simp⟩
  rw [h] at this
  exact List.not_mem_nil x this

theorem findById_append_cons {i : Nat} {x : MasterKey} {p q : List MasterKey}
    (hx : x.id = i) (hp : ∀ y ∈ p, y.id ≠ i) :
    findById i (p ++ x :: q) = some x := by
  induction p with
  | nil =>
    unfold findById
    simp [List.find?, hx]
  | cons a rest ih =>
    unfold findById at ih ⊢
    simp only [List.cons_append, List.find?]
    have ha : (a.id == i) = false := by
      simp only [beq_eq_false_iff_ne, ne_eq]
      exact hp a (List.mem_cons_self a rest)
    rw [ha]
    exact ih (fun y hy => hp y (List.mem_cons_of_mem a hy))

theorem findById_incKeyCountById {i : Nat} {l : List MasterKey} :
    findById i (incKeyCountById i l) =
      (findById i l).map (fun m => { m with keyCount := m.keyCount + 1 }) := by
  induction l with
  | nil => rfl
  | cons a rest ih =>
    cases ha : (a.id == i) with
    | true =>
      have h1 : incKeyCountById i (a :: rest) =
          { a with keyCount := a.keyCount + 1 } :: incKeyCountById i rest := by
        unfold incKeyCountById
        rw [List.map_cons, if_pos ha]
      have h2 : (({ a with keyCount := a.keyCount + 1 } : MasterKey).id == i) = true := ha
      unfold findById
      rw [h1, List.find?_cons_of_pos (p := fun m : MasterKey => m.id == i) _ h2,
        List.find?_cons_of_pos (p := fun m : MasterKey => m.id == i) _ ha]
      rfl
    | false =>
      have h1 : incKeyCountById i (a :: rest) = a :: incKeyCountById i rest := by
        unfold incKeyCountById
        rw [List.map_cons, if_neg (by simp [ha])]
      unfold findById
      rw [h1, List.find?_cons_of_neg (p := fun m : MasterKey => m.id == i) _ (by simp [ha]),
        List.find?_cons_of_neg (p := fun m : MasterKey => m.id == i) _ (by simp [ha])]
      exact ih

theorem findById_of_nodup {l : List MasterKey} {m : MasterKey}
    (hnd : (l.map (fun k => k.id)).Nodup) (hm : m ∈ l) :
    findById m.id l = some m := by
  induction l with
  | nil => simp at hm
  | cons a rest ih =>
    rcases List.mem_cons.mp hm with hm | hm
    · subst hm
      unfold findById
      simp [List.find?]
    · unfold findById
      simp only [List.find?]
      have hane : (a.id == m.id) = false := by
        simp only [List.map_cons, List.nodup_cons] at hnd
        have : m.id ∈ rest.map (fun k => k.id) := List.mem_map_of_mem _ hm
        simp only [beq_eq_false_iff_ne, ne_eq]
        intro hcontra
        exact hnd.1 (hcontra ▸ this)
      rw [hane]
      exact ih (by simp only [List.map_cons, List.nodup_cons] at hnd; exact hnd.2) hm

end KRS

namespace KRS

/-! ## Lemmas about the allocator -/

theorem provisionMasterKey_ok_elim {cfg : Config} {coin customerId : String}
    {st stA : Store} {m : MasterKey} {evsA : List Event}
    (h : provisionMasterKey cfg coin customerId st = (Except.ok m, stA, evsA)) :
    ∃ p q, st.masterKeys = p ++ m :: q ∧
      stA.masterKeys = p ++ assignKey coin customerId (lookupStr cfg.supportedcoins coin) m :: q ∧
      matchesUnassigned (lookupStr cfg.supportedcoins coin) m = true ∧
      (∀ x ∈ p, matchesUnassigned (lookupStr cfg.supportedcoins coin) x = false) ∧
      stA.walletKeys = st.walletKeys ∧
      evsA = (if cfg.lowKeyWarningLevels.contains
                  (countUnassigned (lookupStr cfg.supportedcoins coin) stA.masterKeys)
                && !cfg.disableAllKRSEmail
              then [Event.lowKeyWarning
                      (countUnassigned (lookupStr cfg.supportedcoins coin) stA.masterKeys)
                      (keyTypeStr (lookupStr cfg.supportedcoins coin))]
              else []) := by
  unfold provisionMasterKey at h
  dsimp only at h
  split at h
  · simp at h
  · next key ms heq =>
      simp only [Prod.mk.injEq, Except.ok.injEq] at h
      obtain ⟨hk, hst, hevs⟩ := h
      subst hk
      obtain ⟨p, q, hl, hms, hmm, hp⟩ := claimFirst_eq_some heq
      refine ⟨p, q, hl, ?_, hmm, hp, ?_, ?_⟩
      · rw [← hst]; exact hms
      · rw [← hst]
      · rw [← hevs, ← hst]

theorem provisionMasterKey_findById {cfg : Config} {coin customerId : String}
    {st stA : Store} {m : MasterKey} {evsA : List Event}
    (hnd : (st.masterKeys.map (fun k => k.id)).Nodup)
    (h : provisionMasterKey cfg coin customerId st = (Except.ok m, stA, evsA)) :
    findById m.id stA.masterKeys
        = some (assignKey coin customerId (lookupStr cfg.supportedcoins coin) m) ∧
      stA.masterKeys.map (fun k => k.id) = st.masterKeys.map (fun k => k.id) ∧
      stA.walletKeys = st.walletKeys := by
  obtain ⟨p, q, hl, hms, _, _, hw, _⟩ := provisionMasterKey_ok_elim h
  have hpne : ∀ y ∈ p, y.id ≠ m.id := by
    intro y hy
    rw [hl] at hnd
    rw [List.map_append, List.map_cons, List.nodup_append] at hnd
    have hdisj := hnd.2.2
    intro hcontra
    exact hdisj (List.mem_map_of_mem _ hy) (hcontra ▸ List.mem_cons_self _ _)
  constructor
  · rw [hms]
    exact findById_append_cons rfl hpne
  · constructor
    · rw [hms, hl]
      simp [assignKey]
    · exact hw

theorem getMasterXpub_store_rel {cfg : Config} {coin customerId : String}
    {st stA : Store} {m : MasterKey} {evsA : List Event}
    (hnd : (st.masterKeys.map (fun k => k.id)).Nodup)
    (h : getMasterXpub cfg coin customerId st = (Except.ok m, stA, evsA)) :
    ∃ r, findById m.id stA.masterKeys = some r ∧
      r.keyCount = m.keyCount ∧ r.pub = m.pub ∧ r.id = m.id ∧
      stA.masterKeys.map (fun k => k.id) = st.masterKeys.map (fun k => k.id) ∧
      stA.walletKeys = st.walletKeys := by
  unfold getMasterXpub at h
  split at h
  · obtain ⟨hf, hmap, hw⟩ := provisionMasterKey_findById hnd h
    exact ⟨_, hf, rfl, rfl, rfl, hmap, hw⟩
  · split at h
    · next mk heq =>
        simp only [Prod.mk.injEq, Except.ok.injEq] at h
        obtain ⟨hk, hst, _⟩ := h
        refine ⟨m, ?_, rfl, rfl, rfl, by rw [← hst], by rw [← hst]⟩
        rw [← hst]
        exact findById_of_nodup hnd (hk ▸ List.mem_of_find?_eq_some heq)
    · obtain ⟨hf, hmap, hw⟩ := provisionMasterKey_findById hnd h
      exact ⟨_, hf, rfl, rfl, rfl, hmap, hw⟩

end KRS

namespace KRS

/-! ## Characterization of a successful provisioning run -/

theorem provisionKey_ok_elim {cfg : Config} {ext : Ext} {now : Nat} {req : Request}
    {st st1 : Store} {resp : Response} {evs : List Event}
    (h : provisionKey cfg ext now req st = (Except.ok resp, st1, evs)) :
    ∃ masterKey stA evsA evs2,
      jsFalsyS req.customerId = false ∧
      jsFalsyS req.coin = false ∧
      jsFalsyS (lookupStr cfg.supportedcoins (req.coin.getD "")) = false ∧
      jsFalsyS req.userEmail = false ∧
      requesterAuthCheck cfg req = none ∧
      allocateMasterKey cfg (req.coin.getD "") (req.customerId.getD "") st
        = (Except.ok masterKey, stA, evsA) ∧
      sideEffects cfg ext req (isExistingUser st (req.userEmail.getD ""))
        (keyWithSig masterKey (mkWalletKey cfg now req masterKey)) = (Except.ok (), evs2) ∧
      resp = mkResponse masterKey (mkWalletKey cfg now req masterKey) ∧
      st1 = { masterKeys := incKeyCountById masterKey.id stA.masterKeys,
              walletKeys := stA.walletKeys ++ [mkWalletKey cfg now req masterKey] } ∧
      evs = evsA ++ Event.savedWalletKey (mkWalletKey cfg now req masterKey)
              :: Event.incKeyCount masterKey.id :: evs2 := by
  unfold provisionKey at h
  split at h
  · simp at h
  next hc1 =>
    split at h
    · simp at h
    next hc2 =>
      split at h
      · simp at h
      next hc3 =>
        split at h
        · simp at h
        next hc4 =>
          split at h
          · simp at h
          next hauth =>
            split at h
            · simp at h
            next masterKey stA evsA heqAlloc =>
              dsimp only at h
              split at h
              · simp at h
              next u evs2 heqSE =>
                simp only [Prod.mk.injEq, Except.ok.injEq] at h
                obtain ⟨hresp, hst1, hevs⟩ := h
                refine ⟨masterKey, stA, evsA, evs2,
                  by simpa using hc1, by simpa using hc2, by simpa using hc3,
                  by simpa using hc4, hauth, heqAlloc, heqSE,
                  hresp.symm, hst1.symm, ?_⟩
                rw [← hevs]
                simp

end KRS

namespace KRS

/-! ## Forward-execution lemmas -/

theorem provisionKey_eq_of {cfg : Config} {ext : Ext} {now : Nat} {req : Request}
    {st stA : Store} {masterKey : MasterKey} {evsA : List Event}
    (hc1 : jsFalsyS req.customerId = false)
    (hc2 : jsFalsyS req.coin = false)
    (hc3 : jsFalsyS (lookupStr cfg.supportedcoins (req.coin.getD "")) = false)
    (hc4 : jsFalsyS req.userEmail = false)
    (hauth : requesterAuthCheck cfg req = none)
    (heqAlloc : allocateMasterKey cfg (req.coin.getD "") (req.customerId.getD "") st
      = (Except.ok masterKey, stA, evsA)) :
    provisionKey cfg ext now req st =
      (match sideEffects cfg ext req (isExistingUser st (req.userEmail.getD ""))
          (keyWithSig masterKey (mkWalletKey cfg now req masterKey)) with
       | (Except.error e, evs2) =>
          (Except.error e,
           { masterKeys := incKeyCountById masterKey.id stA.masterKeys,
             walletKeys := stA.walletKeys ++ [mkWalletKey cfg now req masterKey] },
           evsA ++ [Event.savedWalletKey (mkWalletKey cfg now req masterKey),
                    Event.incKeyCount masterKey.id] ++ evs2)
       | (Except.ok _, evs2) =>
          (Except.ok (mkResponse masterKey (mkWalletKey cfg now req masterKey)),
           { masterKeys := incKeyCountById masterKey.id stA.masterKeys,
             walletKeys := stA.walletKeys ++ [mkWalletKey cfg now req masterKey] },
           evsA ++ [Event.savedWalletKey (mkWalletKey cfg now req masterKey),
                    Event.incKeyCount masterKey.id] ++ evs2)) := by
  unfold provisionKey
  rw [if_neg (by simp [hc1]), if_neg (by simp [hc2]), if_neg (by simp [hc3]),
    if_neg (by simp [hc4]), hauth, heqAlloc]

theorem provisionKey_allocError {cfg : Config} {ext : Ext} {now : Nat} {req : Request}
    {st stE : Store} {e : ErrorResponse} {evsE : List Event}
    (hc1 : jsFalsyS req.customerId = false)
    (hc2 : jsFalsyS req.coin = false)
    (hc3 : jsFalsyS (lookupStr cfg.supportedcoins (req.coin.getD "")) = false)
    (hc4 : jsFalsyS req.userEmail = false)
    (hauth : requesterAuthCheck cfg req = none)
    (heqAlloc : allocateMasterKey cfg (req.coin.getD "") (req.customerId.getD "") st
      = (Except.error e, stE, evsE)) :
    provisionKey cfg ext now req st = (Except.error e, stE, evsE) := by
  unfold provisionKey
  rw [if_neg (by simp [hc1]), if_neg (by simp [hc2]), if_neg (by simp [hc3]),
    if_neg (by simp [hc4]), hauth, heqAlloc]

theorem sideEffects_mc_throw {cfg : Config} {ext : Ext} {req : Request}
    {existingUser : Bool} {key : WalletKey}
    (hmc : cfg.sendMailChimpNotKRSEMail = true)
    (hthrow : ext.mcCreateThrows = true) :
    sideEffects cfg ext req existingUser key =
      (Except.error ⟨503, "Problem calling mailchimp"⟩,
       [Event.log "Failed to create Mailchimp lists and tags. "]) := by
  unfold sideEffects mailchimpSync
  simp [hmc, hthrow]

theorem sideEffects_webhook_fail {cfg : Config} {ext : Ext} {req : Request}
    {existingUser : Bool} {key : WalletKey}
    (hmcoff : cfg.sendMailChimpNotKRSEMail = false)
    (hEmail : (!req.disableKRSEmail && !cfg.disableAllKRSEmail) = true → ext.emailOk = true)
    (hurl : jsTruthyS key.notificationURL = true)
    (hwh : ext.webhookOk = false) :
    ∃ evsE, sideEffects cfg ext req existingUser key
      = (Except.ok (), evsE ++ [Event.log "error connecting to webhook"]) := by
  unfold sideEffects notifyEndpoint
  cases hcond : (!req.disableKRSEmail && !cfg.disableAllKRSEmail) with
  | true =>
    refine ⟨[Event.sentEmail (req.userEmail.getD "")
      (if existingUser then "existingUserNewKeyTemplate" else "newkeytemplate")], ?_⟩
    simp only [hmcoff, hcond, hEmail hcond, hurl, hwh]
    simp
  | false =>
    refine ⟨[], ?_⟩
    simp only [hmcoff, hcond, hurl, hwh]
    simp

end KRS


namespace KRS

/-! ## Claim C3: master-key selection policy -/

theorem provisionMasterKey_fresh {cfg : Config} {coin customerId : String}
    {st stA : Store} {m : MasterKey} {evsA : List Event}
    (h : provisionMasterKey cfg coin customerId st = (Except.ok m, stA, evsA)) :
    m.coin = none ∧ m.customerId = none ∧ m ∈ st.masterKeys := by
  obtain ⟨p, q, hl, hms, hmm, hp, hw, hevs⟩ := provisionMasterKey_ok_elim h
  unfold matchesUnassigned at hmm
  simp only [Bool.and_eq_true, Option.isNone_iff_eq_none] at hmm
  exact ⟨hmm.1.1, hmm.1.2, by
    rw [hl]; exact List.mem_append_right _ (List.mem_cons_self _ _)⟩

/-- C3: when `neverReuseMasterKey` is configured, selection always claims
a fresh key via `provisionMasterKey`; otherwise an existing assignment
for `(coin, customerId)` is returned untouched (reuse), and only in its
absence a fresh unassigned key is claimed; every key obtained through
`provisionMasterKey` was unassigned in the pre-state. -/
theorem C3_selection_policy (cfg : Config) (coin customerId : String) (st : Store) :
    (cfg.neverReuseMasterKey = true →
      getMasterXpub cfg coin customerId st = provisionMasterKey cfg coin customerId st) ∧
    (cfg.neverReuseMasterKey = false →
      (∀ m, st.masterKeys.find?
          (fun k => k.coin == some coin && k.customerId == some customerId) = some m →
        getMasterXpub cfg coin customerId st = (Except.ok m, st, [])) ∧
      (st.masterKeys.find?
          (fun k => k.coin == some coin && k.customerId == some customerId) = none →
        getMasterXpub cfg coin customerId st = provisionMasterKey cfg coin customerId st)) ∧
    (∀ m stA evsA, provisionMasterKey cfg coin customerId st = (Except.ok m, stA, evsA) →
      m.coin = none ∧ m.customerId = none ∧ m ∈ st.masterKeys) := by
  refine ⟨?_, ?_, ?_⟩
  · intro h
    unfold getMasterXpub
    rw [if_pos h]
  · intro h
    constructor
    · intro m hf
      unfold getMasterXpub
      rw [if_neg (by simp [h]), hf]
    · intro hf
      unfold getMasterXpub
      rw [if_neg (by simp [h]), hf]
  · intro m stA evsA hp
    exact provisionMasterKey_fresh hp

/-- C3 witness: with reuse enabled and an existing assignment, the
assigned key is returned unchanged with no state change. -/
theorem C3_selection_policy_witness :
    getMasterXpub cfgBtc "btc" "c1" stAssigned = (Except.ok mAssigned, stAssigned, []) :=
  ((C3_selection_policy cfgBtc "btc" "c1" stAssigned).2.1 rfl).1 mAssigned (by decide)

end KRS

namespace KRS

/-! ## Claim C4: pool exhaustion -/

/-- C4: when no unassigned master key of the requested key type remains,
`provisionMasterKey` fails with the 500 pool-exhaustion error, leaves the
store untouched, and `provisionKey` propagates that error unchanged with
no master key assigned and no wallet key written. -/
theorem C4_pool_exhaustion (cfg : Config) (ext : Ext) (now : Nat) (req : Request) (st : Store)
    (hc1 : jsFalsyS req.customerId = false)
    (hc2 : jsFalsyS req.coin = false)
    (hc3 : jsFalsyS (lookupStr cfg.supportedcoins (req.coin.getD "")) = false)
    (hc4 : jsFalsyS req.userEmail = false)
    (hauth : requesterAuthCheck cfg req = none)
    (hpath : lookupStr cfg.supportedcoins (req.coin.getD "") = some "xlm"
      ∨ cfg.neverReuseMasterKey = true
      ∨ st.masterKeys.find? (fun k => k.coin == some (req.coin.getD "")
          && k.customerId == some (req.customerId.getD "")) = none)
    (hempty : countUnassigned (lookupStr cfg.supportedcoins (req.coin.getD ""))
      st.masterKeys = 0) :
    provisionMasterKey cfg (req.coin.getD "") (req.customerId.getD "") st
      = (Except.error ⟨500, "no available "
          ++ keyTypeStr (lookupStr cfg.supportedcoins (req.coin.getD "")) ++ " keys"⟩, st, []) ∧
    provisionKey cfg ext now req st
      = (Except.error ⟨500, "no available "
          ++ keyTypeStr (lookupStr cfg.supportedcoins (req.coin.getD "")) ++ " keys"⟩, st, []) := by
  have hclaim : claimFirst (req.coin.getD "") (req.customerId.getD "")
      (lookupStr cfg.supportedcoins (req.coin.getD "")) st.masterKeys = none :=
    claimFirst_eq_none (countUnassigned_eq_zero hempty)
  have hpmk : provisionMasterKey cfg (req.coin.getD "") (req.customerId.getD "") st
      = (Except.error ⟨500, "no available "
          ++ keyTypeStr (lookupStr cfg.supportedcoins (req.coin.getD "")) ++ " keys"⟩, st, []) := by
    unfold provisionMasterKey
    dsimp only
    rw [hclaim]
  refine ⟨hpmk, ?_⟩
  have halloc : allocateMasterKey cfg (req.coin.getD "") (req.customerId.getD "") st
      = (Except.error ⟨500, "no available "
          ++ keyTypeStr (lookupStr cfg.supportedcoins (req.coin.getD "")) ++ " keys"⟩, st, []) := by
    unfold allocateMasterKey
    cases hbeq : (lookupStr cfg.supportedcoins (req.coin.getD "") == some "xlm") with
    | true =>
      rw [if_pos rfl]
      exact hpmk
    | false =>
      rw [if_neg (by simp)]
      unfold getMasterXpub
      cases hnr : cfg.neverReuseMasterKey with
      | true =>
        rw [if_pos rfl]
        exact hpmk
      | false =>
        rw [if_neg (by simp)]
        have hf : st.masterKeys.find? (fun k => k.coin == some (req.coin.getD "")
            && k.customerId == some (req.customerId.getD "")) = none := by
          rcases hpath with hx | hr | hf
          · rw [hx] at hbeq
            simp at hbeq
          · rw [hr] at hnr
            cases hnr
          · exact hf
        rw [hf]
        exact hpmk
  exact provisionKey_allocError hc1 hc2 hc3 hc4 hauth halloc

/-- C4 witness: an empty pool makes both the claim and the whole
provisioning request fail with the 500 pool-exhaustion error and no
state change. -/
theorem C4_pool_exhaustion_witness :
    provisionMasterKey cfgBtc "btc" "c1" stEmpty
      = (Except.error ⟨500, "no available btc keys"⟩, stEmpty, []) ∧
    provisionKey cfgBtc extOk 3 reqBtc stEmpty
      = (Except.error ⟨500, "no available btc keys"⟩, stEmpty, []) := by
  simpa using C4_pool_exhaustion cfgBtc extOk 3 reqBtc stEmpty
    (by decide) (by decide) (by decide) (by decide) (by decide)
    (Or.inr (Or.inr (by decide))) (by decide)

end KRS

namespace KRS

/-! ## Claim C6: low-supply alerting -/

/-- C6 (amended): after a successful claim the remaining unassigned
count is computed, and the low-supply warning is emitted exactly when
that count is one of the configured levels AND the blanket
`disableAllKRSEmail` flag is not set. -/
theorem C6_low_supply_warning (cfg : Config) (coin customerId : String)
    (st stA : Store) (m : MasterKey) (evsA : List Event)
    (h : provisionMasterKey cfg coin customerId st = (Except.ok m, stA, evsA)) :
    evsA = (if cfg.lowKeyWarningLevels.contains
                (countUnassigned (lookupStr cfg.supportedcoins coin) stA.masterKeys)
              && !cfg.disableAllKRSEmail
            then [Event.lowKeyWarning
                    (countUnassigned (lookupStr cfg.supportedcoins coin) stA.masterKeys)
                    (keyTypeStr (lookupStr cfg.supportedcoins coin))]
            else []) := by
  obtain ⟨p, q, hl, hms, hmm, hp, hw, hevs⟩ := provisionMasterKey_ok_elim h
  exact hevs

/-- C6 witness: with alert level 0 and email enabled, draining the pool
emits the low-supply warning carrying the remaining count and key type. -/
theorem C6_low_supply_warning_witness :
    [Event.lowKeyWarning 0 "btc"]
      = (if cfgLow.lowKeyWarningLevels.contains
              (countUnassigned (lookupStr cfgLow.supportedcoins "btc")
                (Store.mk [⟨1, some "btc", some "c1", "btc", "XPUB", 0, none⟩] []).masterKeys)
            && !cfgLow.disableAllKRSEmail
          then [Event.lowKeyWarning
                  (countUnassigned (lookupStr cfgLow.supportedcoins "btc")
                    (Store.mk [⟨1, some "btc", some "c1", "btc", "XPUB", 0, none⟩] []).masterKeys)
                  (keyTypeStr (lookupStr cfgLow.supportedcoins "btc"))]
          else []) :=
  C6_low_supply_warning cfgLow "btc" "c1" stBtc1
    (Store.mk [⟨1, some "btc", some "c1", "btc", "XPUB", 0, none⟩] [])
    ⟨1, none, none, "btc", "XPUB", 0, none⟩ [Event.lowKeyWarning 0 "btc"] (by decide)

/-- C6 counterexample: with `disableAllKRSEmail` set, a claim that
leaves a remaining count inside the configured alert levels emits NO
low-supply event, contradicting the unconditional claim. -/
theorem C6_low_supply_warning_counterexample :
    provisionMasterKey cfgLowDisabled "btc" "c1" stTwo
      = (Except.ok ⟨1, none, none, "btc", "XPUB", 0, none⟩,
         Store.mk [⟨1, some "btc", some "c1", "btc", "XPUB", 0, none⟩,
                   ⟨2, none, none, "btc", "YPUB", 0, none⟩] [], []) ∧
    countUnassigned (lookupStr cfgLowDisabled.supportedcoins "btc")
      [⟨1, some "btc", some "c1", "btc", "XPUB", 0, none⟩,
       ⟨2, none, none, "btc", "YPUB", 0, none⟩] = 1 ∧
    cfgLowDisabled.lowKeyWarningLevels.contains 1 = true := by decide

end KRS

namespace KRS

/-! ## Claim C7: request validation -/

/-- C7: a provisioning request missing `customerId`, `coin` or
`userEmail`, or naming a coin outside the configured support table,
terminates with a 400 validation error, before any master key is
claimed and before any wallet key is written (the store is unchanged
and no effect event is emitted). -/
theorem C7_validation (cfg : Config) (ext : Ext) (now : Nat) (req : Request) (st : Store)
    (hbad : jsFalsyS req.customerId = true ∨ jsFalsyS req.coin = true
      ∨ jsFalsyS (lookupStr cfg.supportedcoins (req.coin.getD "")) = true
      ∨ jsFalsyS req.userEmail = true) :
    ∃ msg, provisionKey cfg ext now req st = (Except.error ⟨400, msg⟩, st, []) := by
  unfold provisionKey
  cases hc1 : jsFalsyS req.customerId with
  | true => exact ⟨"user or enterprise ID required", by rw [if_pos rfl]⟩
  | false =>
    rw [if_neg (by simp)]
    cases hc2 : jsFalsyS req.coin with
    | true => exact ⟨"coin type required", by rw [if_pos rfl]⟩
    | false =>
      rw [if_neg (by simp)]
      cases hc3 : jsFalsyS (lookupStr cfg.supportedcoins (req.coin.getD "")) with
      | true => exact ⟨"unsupported coin", by rw [if_pos rfl]⟩
      | false =>
        rw [if_neg (by simp)]
        cases hc4 : jsFalsyS req.userEmail with
        | true => exact ⟨"email required", by rw [if_pos rfl]⟩
        | false =>
          simp [hc1, hc2, hc3, hc4] at hbad

/-- C7 witness: a request without a user email fails with a 400 and
leaves the store untouched. -/
theorem C7_validation_witness :
    ∃ msg, provisionKey cfgBtc extOk 3 reqNoEmail stBtc1
      = (Except.error ⟨400, msg⟩, stBtc1, []) :=
  C7_validation cfgBtc extOk 3 reqNoEmail stBtc1 (Or.inr (Or.inr (Or.inr (by decide))))

end KRS

namespace KRS

/-! ## Claim C8: requester authentication -/

/-- C8: with requester auth configured as required, a request whose
credentials are absent or do not match the configured client table fails
with a 401 and leaves the store untouched: no master key is claimed and
no wallet key is persisted. -/
theorem C8_requester_auth (cfg : Config) (ext : Ext) (now : Nat) (req : Request) (st : Store)
    (ra : RequesterAuth)
    (hc1 : jsFalsyS req.customerId = false)
    (hc2 : jsFalsyS req.coin = false)
    (hc3 : jsFalsyS (lookupStr cfg.supportedcoins (req.coin.getD "")) = false)
    (hc4 : jsFalsyS req.userEmail = false)
    (hra : cfg.requesterAuth = some ra)
    (hreq : ra.required = true)
    (hbad : ¬ ∃ i s, req.requesterId = some i ∧ req.requesterSecret = some s
      ∧ lookupStr ra.clients i = some s) :
    ∃ msg, provisionKey cfg ext now req st = (Except.error ⟨401, msg⟩, st, []) := by
  have hcheck : ∃ msg, requesterAuthCheck cfg req = some ⟨401, msg⟩ := by
    unfold requesterAuthCheck
    rw [hra]
    dsimp only
    rw [if_pos hreq]
    cases hfirst : (jsFalsyS req.requesterId && jsFalsyS req.requesterSecret) with
    | true =>
      exact ⟨"this krs requires you to send a requesterId and requesterSecret to get a key",
        by rw [if_pos rfl]⟩
    | false =>
      rw [if_neg (by simp)]
      refine ⟨"invalid requesterSecret", ?_⟩
      have hcond : (jsFalsyS (match req.requesterId with
          | none => none
          | some i => lookupStr ra.clients i)
          || !((match req.requesterId with
               | none => none
               | some i => lookupStr ra.clients i) == req.requesterSecret)) = true := by
        cases hsid : req.requesterId with
        | none => simp [jsFalsyS, jsTruthyS]
        | some i =>
          cases hsec : lookupStr ra.clients i with
          | none => simp [hsec, jsFalsyS, jsTruthyS]
          | some s =>
            cases hrs : req.requesterSecret with
            | none => simp [hsec, hrs, jsFalsyS, jsTruthyS]
            | some s2 =>
              by_cases hss : s = s2
              · exact absurd ⟨i, s2, hsid, hrs, by rw [hsec, hss]⟩ hbad
              · simp [hsec, hrs, jsFalsyS, jsTruthyS, hss]
      rw [if_pos hcond]
  obtain ⟨msg, hm⟩ := hcheck
  refine ⟨msg, ?_⟩
  unfold provisionKey
  rw [if_neg (by simp [hc1]), if_neg (by simp [hc2]), if_neg (by simp [hc3]),
    if_neg (by simp [hc4])]
  dsimp only
  rw [hm]

/-- C8 witness: with required requester auth and a request that supplies
a known requesterId but omits the secret, provisioning fails with a 401
and the pool is untouched. -/
theorem C8_requester_auth_witness :
    ∃ msg, provisionKey cfgAuth extOk 3 reqAuthMissing stBtc1
      = (Except.error ⟨401, msg⟩, stBtc1, []) :=
  C8_requester_auth cfgAuth extOk 3 reqAuthMissing stBtc1
    { required := true, clients := [("id1", "sec1")] }
    (by decide) (by decide) (by decide) (by decide) rfl rfl
    (by rintro ⟨i, s, hi, hs, hl⟩; cases hs)

end KRS

namespace KRS

/-! ## Claim C1: the xlm (single-use) provisioning path -/

theorem allocateMasterKey_xlm {cfg : Config} {coin customerId : String} {st : Store}
    (hxlm : lookupStr cfg.supportedcoins coin = some "xlm") :
    allocateMasterKey cfg coin customerId st = provisionMasterKey cfg coin customerId st := by
  unfold allocateMasterKey
  rw [if_pos (by simp [hxlm])]

theorem allocateMasterKey_not_xlm {cfg : Config} {coin customerId : String} {st : Store}
    (hnx : lookupStr cfg.supportedcoins coin ≠ some "xlm") :
    allocateMasterKey cfg coin customerId st = getMasterXpub cfg coin customerId st := by
  unfold allocateMasterKey
  rw [if_neg (by simp [hnx])]

theorem mkWalletKey_pub_xlm {cfg : Config} {now : Nat} {req : Request} {masterKey : MasterKey}
    (hxlm : lookupStr cfg.supportedcoins (req.coin.getD "") = some "xlm") :
    (mkWalletKey cfg now req masterKey).pub = some masterKey.pub := by
  unfold mkWalletKey
  simp [hxlm]

theorem mkWalletKey_pub_not_xlm {cfg : Config} {now : Nat} {req : Request} {masterKey : MasterKey}
    (hnx : lookupStr cfg.supportedcoins (req.coin.getD "") ≠ some "xlm") :
    (mkWalletKey cfg now req masterKey).pub
      = some (deriveChildKey masterKey.pub (toString masterKey.keyCount) "xpub") := by
  unfold mkWalletKey
  simp [hnx]

/-- C1 (amended): a successful provisioning of a coin whose configured
key type is `xlm` issues the claimed fresh master key's own pub as the
wallet key at derivation path 0 — but the master key's `keyCount` IS
incremented by the request (the post-save `$inc` of line 169 runs
unconditionally, also on the xlm path), ending at 1 instead of staying
at 0. -/
theorem C1_xlm_provisioning (cfg : Config) (ext : Ext) (now : Nat) (req : Request)
    (st st1 : Store) (resp : Response) (evs : List Event)
    (hnd : (st.masterKeys.map (fun k => k.id)).Nodup)
    (hwf : ∀ m ∈ st.masterKeys, m.coin = none → m.customerId = none → m.keyCount = 0)
    (hxlm : lookupStr cfg.supportedcoins (req.coin.getD "") = some "xlm")
    (hrun : provisionKey cfg ext now req st = (Except.ok resp, st1, evs)) :
    resp.pub = some resp.masterKey ∧
    resp.path = some 0 ∧
    ∃ masterKey stA evsA r,
      provisionMasterKey cfg (req.coin.getD "") (req.customerId.getD "") st
        = (Except.ok masterKey, stA, evsA) ∧
      masterKey.keyCount = 0 ∧
      resp.masterKey = masterKey.pub ∧
      findById masterKey.id st1.masterKeys = some r ∧
      r.keyCount = 1 := by
  obtain ⟨masterKey, stA, evsA, evs2, hc1, hc2, hc3, hc4, hauth, heqAlloc, heqSE,
    hresp, hst1, hevs⟩ := provisionKey_ok_elim hrun
  rw [allocateMasterKey_xlm hxlm] at heqAlloc
  obtain ⟨hfind, hmap, hwkeys⟩ := provisionMasterKey_findById hnd heqAlloc
  obtain ⟨hcoin, hcust, hmem⟩ := provisionMasterKey_fresh heqAlloc
  have hkc : masterKey.keyCount = 0 := hwf masterKey hmem hcoin hcust
  refine ⟨?_, ?_, masterKey, stA, evsA,
    { assignKey (req.coin.getD "") (req.customerId.getD "")
        (lookupStr cfg.supportedcoins (req.coin.getD "")) masterKey with
      keyCount := masterKey.keyCount + 1 },
    heqAlloc, hkc, by rw [hresp]; rfl, ?_, by simp [hkc]⟩
  · rw [hresp]
    show (mkWalletKey cfg now req masterKey).pub = some masterKey.pub
    exact mkWalletKey_pub_xlm hxlm
  · rw [hresp]
    show (mkWalletKey cfg now req masterKey).path = some 0
    unfold mkWalletKey
    simp [hkc]
  · rw [hst1]
    show findById masterKey.id (incKeyCountById masterKey.id stA.masterKeys) = _
    rw [findById_incKeyCountById, hfind]
    rfl

end KRS

namespace KRS

/-- C1 witness: the concrete xlm scenario satisfies the amended claim:
pub equals the master pub, path 0, and the master key ends at
`keyCount = 1`. -/
theorem C1_xlm_provisioning_witness :
    respXlm.pub = some respXlm.masterKey ∧
    respXlm.path = some 0 ∧
    ∃ masterKey stA evsA r,
      provisionMasterKey cfgXlm (reqXlm.coin.getD "") (reqXlm.customerId.getD "") stXlm1
        = (Except.ok masterKey, stA, evsA) ∧
      masterKey.keyCount = 0 ∧
      respXlm.masterKey = masterKey.pub ∧
      findById masterKey.id stXlmFinal.masterKeys = some r ∧
      r.keyCount = 1 :=
  C1_xlm_provisioning cfgXlm extOk 3 reqXlm stXlm1 stXlmFinal respXlm
    [Event.savedWalletKey wkXlm, Event.incKeyCount 1, Event.sentEmail "u@x" "newkeytemplate"]
    (by decide) (by decide) (by decide) (by decide)

/-- C1 counterexample: the xlm path DOES increment the master key's
derivation index: the pool key starts with `keyCount = 0` and, after the
successful single-use provisioning, holds `keyCount = 1`, refuting the
claim that no increment is performed. -/
theorem C1_xlm_provisioning_counterexample :
    stXlm1.masterKeys.map (fun k => k.keyCount) = [0] ∧
    provisionKey cfgXlm extOk 3 reqXlm stXlm1
      = (Except.ok respXlm, stXlmFinal,
         [Event.savedWalletKey wkXlm, Event.incKeyCount 1,
          Event.sentEmail "u@x" "newkeytemplate"]) ∧
    stXlmFinal.masterKeys.map (fun k => k.keyCount) = [1] := by decide

end KRS

namespace KRS

/-! ## Claim C2: the derivable provisioning path -/

/-- C2: a successful provisioning of a derivable (non-xlm) coin reads
the selected master key's `keyCount` as the derivation path, derives the
wallet pub from the master pub at that path, persists the wallet key
carrying exactly that path, and only afterwards (save event preceding
the increment event) increments the master key's `keyCount` by exactly
one. -/
theorem C2_derivable_provisioning (cfg : Config) (ext : Ext) (now : Nat) (req : Request)
    (st st1 : Store) (resp : Response) (evs : List Event)
    (hnd : (st.masterKeys.map (fun k => k.id)).Nodup)
    (hnx : lookupStr cfg.supportedcoins (req.coin.getD "") ≠ some "xlm")
    (hrun : provisionKey cfg ext now req st = (Except.ok resp, st1, evs)) :
    ∃ masterKey stA evsA r rest,
      getMasterXpub cfg (req.coin.getD "") (req.customerId.getD "") st
        = (Except.ok masterKey, stA, evsA) ∧
      resp.pub = some (deriveChildKey masterKey.pub (toString masterKey.keyCount) "xpub") ∧
      resp.path = some masterKey.keyCount ∧
      (mkWalletKey cfg now req masterKey).pub = resp.pub ∧
      (mkWalletKey cfg now req masterKey).path = some masterKey.keyCount ∧
      st1.walletKeys = st.walletKeys ++ [mkWalletKey cfg now req masterKey] ∧
      findById masterKey.id st1.masterKeys = some r ∧
      r.keyCount = masterKey.keyCount + 1 ∧
      evs = evsA ++ Event.savedWalletKey (mkWalletKey cfg now req masterKey)
              :: Event.incKeyCount masterKey.id :: rest := by
  obtain ⟨masterKey, stA, evsA, evs2, hc1, hc2, hc3, hc4, hauth, heqAlloc, heqSE,
    hresp, hst1, hevs⟩ := provisionKey_ok_elim hrun
  rw [allocateMasterKey_not_xlm hnx] at heqAlloc
  obtain ⟨r0, hfind, hkc0, hpub0, hid0, hmap, hwkeys⟩ := getMasterXpub_store_rel hnd heqAlloc
  refine ⟨masterKey, stA, evsA, { r0 with keyCount := r0.keyCount + 1 }, evs2,
    heqAlloc, ?_, by rw [hresp]; rfl, ?_, rfl, ?_, ?_, by simp [hkc0], hevs⟩
  · rw [hresp]
    show (mkWalletKey cfg now req masterKey).pub = _
    exact mkWalletKey_pub_not_xlm hnx
  · rw [hresp]
    show (mkWalletKey cfg now req masterKey).pub = (mkResponse masterKey _).pub
    rfl
  · rw [hst1]
    show stA.walletKeys ++ _ = _
    rw [hwkeys]
  · rw [hst1]
    show findById masterKey.id (incKeyCountById masterKey.id stA.masterKeys) = _
    rw [findById_incKeyCountById, hfind]
    rfl

/-- C2 witness: the concrete btc scenario: path 0 read from the fresh
master key, pub derived at that path, wallet key saved before the
increment, and the master key ends at `keyCount = 1`. -/
theorem C2_derivable_provisioning_witness :
    ∃ masterKey stA evsA r rest,
      getMasterXpub cfgBtc (reqBtc.coin.getD "") (reqBtc.customerId.getD "") stBtc1
        = (Except.ok masterKey, stA, evsA) ∧
      respBtc.pub = some (deriveChildKey masterKey.pub (toString masterKey.keyCount) "xpub") ∧
      respBtc.path = some masterKey.keyCount ∧
      (mkWalletKey cfgBtc 3 reqBtc masterKey).pub = respBtc.pub ∧
      (mkWalletKey cfgBtc 3 reqBtc masterKey).path = some masterKey.keyCount ∧
      stBtcFinal.walletKeys = stBtc1.walletKeys ++ [mkWalletKey cfgBtc 3 reqBtc masterKey] ∧
      findById masterKey.id stBtcFinal.masterKeys = some r ∧
      r.keyCount = masterKey.keyCount + 1 ∧
      [Event.savedWalletKey wkBtc, Event.incKeyCount 1, Event.sentEmail "u@x" "newkeytemplate"]
        = evsA ++ Event.savedWalletKey (mkWalletKey cfgBtc 3 reqBtc masterKey)
            :: Event.incKeyCount masterKey.id :: rest :=
  C2_derivable_provisioning cfgBtc extOk 3 reqBtc stBtc1 stBtcFinal respBtc
    [Event.savedWalletKey wkBtc, Event.incKeyCount 1, Event.sentEmail "u@x" "newkeytemplate"]
    (by decide) (by decide) (by decide)

end KRS

namespace KRS

/-! ## Claim C10: the created timestamp inside custom metadata -/

/-- C10: every successful provisioning returns a custom metadata object
whose `created` field holds the service clock value, overwriting any
`created` the caller supplied, while the caller's other fields pass
through. -/
theorem C10_custom_created (cfg : Config) (ext : Ext) (now : Nat) (req : Request)
    (st st1 : Store) (resp : Response) (evs : List Event)
    (hrun : provisionKey cfg ext now req st = (Except.ok resp, st1, evs)) :
    ∃ cm, resp.custom = some cm ∧ cm.created = some now ∧
      cm.fields = (req.custom.getD { created := none, fields := [] }).fields := by
  obtain ⟨masterKey, stA, evsA, evs2, hc1, hc2, hc3, hc4, hauth, heqAlloc, heqSE,
    hresp, hst1, hevs⟩ := provisionKey_ok_elim hrun
  refine ⟨{ req.custom.getD { created := none, fields := [] } with created := some now },
    ?_, rfl, rfl⟩
  rw [hresp]
  rfl

/-- C10 witness: a caller-supplied `custom` with `created := 999` comes
back with `created` replaced by the clock value 3 and the other field
preserved. -/
theorem C10_custom_created_witness :
    ∃ cm, respCustom.custom = some cm ∧ cm.created = some 3 ∧
      cm.fields = (reqCustom.custom.getD { created := none, fields := [] }).fields :=
  C10_custom_created cfgBtc extOk 3 reqCustom stBtc1 stCustomFinal respCustom
    [Event.savedWalletKey wkCustom, Event.incKeyCount 1,
     Event.sentEmail "u@x" "newkeytemplate"]
    (by decide)

end KRS

namespace KRS

/-! ## Claim C5: best-effort side effect failures -/

theorem keyWithSig_notificationURL {masterKey : MasterKey} {key : WalletKey} :
    (keyWithSig masterKey key).notificationURL = key.notificationURL := by
  unfold keyWithSig
  split <;> rfl

/-- C5 (amended): a webhook delivery failure is caught and logged and
the provisioning request still returns success with the wallet key
persisted; a mailchimp failure is caught and logged but is then
re-thrown as a 503 service error to the caller — after the wallet key
has already been persisted — so only the webhook half of the original
claim holds. -/
theorem C5_side_effect_failures :
    (∀ (cfg : Config) (ext : Ext) (now : Nat) (req : Request) (st stA : Store)
        (masterKey : MasterKey) (evsA : List Event),
      jsFalsyS req.customerId = false →
      jsFalsyS req.coin = false →
      jsFalsyS (lookupStr cfg.supportedcoins (req.coin.getD "")) = false →
      jsFalsyS req.userEmail = false →
      requesterAuthCheck cfg req = none →
      allocateMasterKey cfg (req.coin.getD "") (req.customerId.getD "") st
        = (Except.ok masterKey, stA, evsA) →
      cfg.sendMailChimpNotKRSEMail = false →
      ((!req.disableKRSEmail && !cfg.disableAllKRSEmail) = true → ext.emailOk = true) →
      jsTruthyS req.notificationURL = true →
      ext.webhookOk = false →
      ∃ resp st1 evs, provisionKey cfg ext now req st = (Except.ok resp, st1, evs) ∧
        Event.log "error connecting to webhook" ∈ evs ∧
        mkWalletKey cfg now req masterKey ∈ st1.walletKeys) ∧
    (∀ (cfg : Config) (ext : Ext) (now : Nat) (req : Request) (st stA : Store)
        (masterKey : MasterKey) (evsA : List Event),
      jsFalsyS req.customerId = false →
      jsFalsyS req.coin = false →
      jsFalsyS (lookupStr cfg.supportedcoins (req.coin.getD "")) = false →
      jsFalsyS req.userEmail = false →
      requesterAuthCheck cfg req = none →
      allocateMasterKey cfg (req.coin.getD "") (req.customerId.getD "") st
        = (Except.ok masterKey, stA, evsA) →
      cfg.sendMailChimpNotKRSEMail = true →
      ext.mcCreateThrows = true →
      ∃ st1 evs, provisionKey cfg ext now req st
          = (Except.error ⟨503, "Problem calling mailchimp"⟩, st1, evs) ∧
        Event.log "Failed to create Mailchimp lists and tags. " ∈ evs ∧
        mkWalletKey cfg now req masterKey ∈ st1.walletKeys) := by
  constructor
  · intro cfg ext now req st stA masterKey evsA hc1 hc2 hc3 hc4 hauth heqAlloc
      hmcoff hEmail hurl hwh
    have hurlK : jsTruthyS
        (keyWithSig masterKey (mkWalletKey cfg now req masterKey)).notificationURL = true := by
      rw [keyWithSig_notificationURL]
      exact hurl
    obtain ⟨evsE, hSE⟩ := sideEffects_webhook_fail hmcoff hEmail hurlK hwh
    rw [provisionKey_eq_of hc1 hc2 hc3 hc4 hauth heqAlloc, hSE]
    refine ⟨_, _, _, rfl, ?_, ?_⟩
    · simp
    · simp

  · intro cfg ext now req st stA masterKey evsA hc1 hc2 hc3 hc4 hauth heqAlloc hmc hthrow
    rw [provisionKey_eq_of hc1 hc2 hc3 hc4 hauth heqAlloc,
      sideEffects_mc_throw hmc hthrow]
    refine ⟨_, _, rfl, ?_, ?_⟩
    · simp
    · simp

/-- C5 witness: concrete run with the webhook endpoint down — the
request still succeeds, the failure is logged, and the wallet key is in
the store. -/
theorem C5_side_effect_failures_witness :
    ∃ resp st1 evs, provisionKey cfgBtc extWebhookDown 3 reqUrl stBtc1
        = (Except.ok resp, st1, evs) ∧
      Event.log "error connecting to webhook" ∈ evs ∧
      mkWalletKey cfgBtc 3 reqUrl mBtcFresh ∈ st1.walletKeys :=
  C5_side_effect_failures.1 cfgBtc extWebhookDown 3 reqUrl stBtc1 stBtcAssigned0
    mBtcFresh []
    (by decide) (by decide) (by decide) (by decide) (by decide) (by decide)
    (by decide) (fun _ => rfl) (by decide) (by decide)

/-- C5 counterexample: with the mailchimp sync enabled and its
`createMember` call throwing, the request does NOT return success: it
fails with the 503 mailchimp error even though the wallet key was
already persisted, refuting the never-propagated claim. -/
theorem C5_side_effect_failures_counterexample :
    (provisionKey cfgMC extMcThrow 3 reqBtc stBtc1).1
      = Except.error ⟨503, "Problem calling mailchimp"⟩ ∧
    (provisionKey cfgMC extMcThrow 3 reqBtc stBtc1).2.1.walletKeys.length = 1 := by decide

end KRS

namespace KRS

/-! ## Claim C9: the webhook payload -/

/-- C9 (code bug): for a provisioning request with a `notificationURL`,
the webhook fires exactly once, but its payload carries
`xpub = undefined` and an HMAC of that undefined value — not the issued
public key — because `notifyEndpoint` reads `key.xpub` while
`provisionKey` only ever assigns `key.pub` (which does hold the issued
key, as the second conjunct shows). -/
theorem C9_webhook_xpub_missing :
    (provisionKey cfgBtc extOk 3 reqUrl stBtc1).2.2.filterMap
        (fun e => match e with
          | Event.webhookPost _ p => some p
          | _ => none)
      = [{ userEmail := some "u@x", provider := "prov", state := "created",
           xpub := none, hmac := none }] ∧
    (match (provisionKey cfgBtc extOk 3 reqUrl stBtc1).1 with
     | Except.ok r => r.pub
     | Except.error _ => none) = some "child(xpub,XPUB,0)" := by decide

end KRS
